import Mathlib

/-!
Verification of the Velvet preprocessing worker's adaptive text-extraction
pipeline: token acceptance under the dynamic confidence threshold,
best-candidate selection across recognition strategies, heuristic text
correction, and rule-based context classification.

The definitions below are a shallow embedding of
`services/preproc-worker/main.py` (class `VelvetPreprocessor`) and of the
standalone experiment `test-optimized-ocr.py`.  Strings are modelled as
`List Char`, integer engine confidences as `Int`, and the floating-point
mean confidence as `ℚ` (the Python division is exact on the integers that
occur).  A recognition strategy that throws is modelled as `none` in the
list of per-strategy engine outcomes.
-/

namespace Velvet

/-- Whitespace test used by Python `str.split` / `str.strip` (the inputs of
interest are ASCII, where Lean's `Char.isWhitespace` agrees with Python). -/
def isWs (c : Char) : Bool := c.isWhitespace

/-- Python `str.strip()`: drop whitespace from both ends. -/
def pyStrip (s : List Char) : List Char :=
  ((s.dropWhile isWs).reverse.dropWhile isWs).reverse

/-- Helper for `pySplit`: accumulate the current word (reversed) while
scanning. -/
def pySplitGo (cur : List Char) : List Char → List (List Char)
  | [] => if cur.isEmpty then [] else [cur.reverse]
  | c :: cs =>
    if isWs c then
      if cur.isEmpty then pySplitGo [] cs else cur.reverse :: pySplitGo [] cs
    else
      pySplitGo (c :: cur) cs

/-- Python `str.split()` with no argument: split on runs of whitespace,
discarding empty pieces. -/
def pySplit (s : List Char) : List (List Char) := pySplitGo [] s

/-- Python `' '.join(words)`. -/
def joinSpaces : List (List Char) → List Char
  | [] => []
  | [w] => w
  | w :: ws => w ++ ' ' :: joinSpaces ws

/-- Does `pat` occur at the head of `s`? -/
def startsWithChars : List Char → List Char → Bool
  | [], _ => true
  | _ :: _, [] => false
  | p :: ps, c :: cs => p = c && startsWithChars ps cs

/-- Python `pat in s` (contiguous substring test). -/
def containsSub (pat : List Char) : List Char → Bool
  | [] => startsWithChars pat []
  | c :: cs => startsWithChars pat (c :: cs) || containsSub pat cs

/-- Python `s.count(c)` for a single-character needle. -/
def countChar (c : Char) (s : List Char) : Nat :=
  (s.filter (fun x => x = c)).length

/-- Python `s.replace(wrong, right)` for a single-character pattern:
replace every occurrence of `wrong` by the string `right`. -/
def replaceChar (wrong : Char) (right : List Char) : List Char → List Char
  | [] => []
  | c :: cs => (if c = wrong then right else [c]) ++ replaceChar wrong right cs

/-- Helper for `pyReplace`: `skip` counts characters still to copy over
silently because they belong to a region just replaced. -/
def pyReplaceGo (pat rep : List Char) : Nat → List Char → List Char
  | _, [] => []
  | Nat.succ k, _ :: cs => pyReplaceGo pat rep k cs
  | 0, c :: cs =>
    if startsWithChars pat (c :: cs) && !pat.isEmpty then
      rep ++ pyReplaceGo pat rep (pat.length - 1) cs
    else
      c :: pyReplaceGo pat rep 0 cs

/-- Python `s.replace(pat, rep)` for a non-empty multi-character pattern:
leftmost non-overlapping occurrences, scanning the original string. -/
def pyReplace (pat rep s : List Char) : List Char :=
  pyReplaceGo pat rep 0 s

/-- Left brace character (the regex allow-list of the source contains it). -/
def lbrace : Char := Char.ofNat 123

/-- Right brace character. -/
def rbrace : Char := Char.ofNat 125

/-- Backtick character (also in the regex allow-list of the source). -/
def backtick : Char := Char.ofNat 96

/-- The punctuation characters of the allow-list in the artifact-stripping
regex of `post_process_ocr_text` (the `\w`-based class of the test script
admits the same ASCII characters). -/
def allowedPunct : List Char :=
  ['.', ',', '!', '?', '@', '#', '$', '%', '^', '&', '*', '(', ')', '_',
   '+', '-', '=', '[', ']', lbrace, rbrace, '|', ';', ':', '"', '<', '>',
   '/', '~', backtick]

/-- Membership in the regex allow-list `[a-zA-Z0-9\s.,!?@#$%^&*()_+\-=...]`. -/
def allowedChar (c : Char) : Bool :=
  c.isAlpha || c.isDigit || c.isWhitespace || allowedPunct.contains c

/-- Emit a pending run of disallowed characters: a run of length `>= 3`
collapses to a single space, shorter runs pass through. -/
def flushRun (run : List Char) : List Char :=
  if 3 ≤ run.length then [' '] else run

/-- Helper for `stripArtifacts`: `run` is the pending maximal run of
disallowed characters seen so far. -/
def stripArtifactsGo (run : List Char) : List Char → List Char
  | [] => flushRun run
  | c :: cs =>
    if allowedChar c then
      flushRun run ++ c :: stripArtifactsGo [] cs
    else
      stripArtifactsGo (run ++ [c]) cs

/-- The artifact-stripping pass
`re.sub(r'[^a-zA-Z0-9\s. ...]{3,}', ' ', s)`: every maximal run of three or
more disallowed characters becomes one space. -/
def stripArtifacts (s : List Char) : List Char := stripArtifactsGo [] s

/-- The character-substitution table of
`VelvetPreprocessor.post_process_ocr_text`, in dict insertion order. -/
def corrections : List (Char × List Char) :=
  [('0', ['O']), ('1', ['I']), ('5', ['S']), ('8', ['B']), ('@', ['a']),
   ('|', ['l']), ('¥', ['Y']), ('§', ['S']), ('©', ['C']), ('®', ['R']),
   ('™', ['T', 'M'])]

/-- Per-word character correction of `post_process_ocr_text`: only words
longer than 2 characters are touched; a glyph is replaced only when it
occurs in the original word at most twice. -/
def correctWord (word : List Char) : List Char :=
  if 2 < word.length then
    corrections.foldl
      (fun corrected p =>
        if word.contains p.1 && decide (countChar p.1 word ≤ 2) then
          replaceChar p.1 p.2 corrected
        else
          corrected)
      word
  else
    word

/-- `VelvetPreprocessor.post_process_ocr_text` on character lists: empty
input short-circuits; otherwise per-word character correction, join,
whitespace collapse, artifact stripping, and a final strip. -/
def post_process_chars (raw : List Char) : List Char :=
  if raw = [] then []
  else
    let corrected_words := (pySplit raw).map correctWord
    let processed := joinSpaces corrected_words
    let collapsed := joinSpaces (pySplit processed)
    pyStrip (stripArtifacts collapsed)

/-- `VelvetPreprocessor.post_process_ocr_text` (the production corrector). -/
def post_process_ocr_text (s : String) : String :=
  (post_process_chars s.toList).asString

/-- The character-substitution table of the standalone test script's
`advanced_post_process`, in dict insertion order. -/
def corrections2 : List (Char × List Char) :=
  [('0', ['O']), ('1', ['I']), ('5', ['S']), ('8', ['B']), ('6', ['G']),
   ('@', ['a']), ('|', ['l']), ('¥', ['Y']), ('§', ['S']), ('©', ['C']),
   ('®', ['R'])]

/-- Number of alphabetic characters in a word (Python
`sum(c.isalpha() for c in w)`). -/
def alphaCount (w : List Char) : Nat :=
  (w.filter Char.isAlpha).length

/-- Per-word character correction of `advanced_post_process`: a
substitution is kept only when it does not decrease the count of
alphabetic characters. -/
def correctWord2 (word : List Char) : List Char :=
  if word.length < 2 then word
  else
    corrections2.foldl
      (fun corrected p =>
        if word.contains p.1 then
          let t := replaceChar p.1 p.2 corrected
          if alphaCount corrected ≤ alphaCount t then t else corrected
        else
          corrected)
      word

/-- The misspelling dictionary of `advanced_post_process` (`word_fixes`),
in dict insertion order. -/
def word_fixes : List (List Char × List Char) :=
  [("teh".toList, "the".toList), ("adn".toList, "and".toList),
   ("taht".toList, "that".toList), ("wiht".toList, "with".toList),
   ("yuo".toList, "you".toList), ("cna".toList, "can".toList),
   ("woudl".toList, "would".toList), ("hte".toList, "the".toList)]

/-- The standalone test script's `advanced_post_process` on character
lists: whitespace normalization, character corrections, space-delimited
misspelling replacement (`s.replace(" teh ", " the ")` and friends),
artifact stripping, final whitespace normalization. -/
def advanced_post_process_chars (raw : List Char) : List Char :=
  if raw = [] then []
  else
    let processed := joinSpaces (pySplit raw)
    let corrected := joinSpaces ((pySplit processed).map correctWord2)
    let fixed := word_fixes.foldl
      (fun s p => pyReplace (' ' :: (p.1 ++ [' '])) (' ' :: (p.2 ++ [' '])) s)
      corrected
    joinSpaces (pySplit (stripArtifacts fixed))

/-- The standalone test script's `advanced_post_process`. -/
def advanced_post_process (s : String) : String :=
  (advanced_post_process_chars s.toList).asString

/-- Python `word.isalpha()`: non-empty and all characters alphabetic. -/
def pyIsAlpha (w : List Char) : Bool :=
  (!w.isEmpty) && w.all Char.isAlpha

/-- The dynamic confidence threshold of
`VelvetPreprocessor.extract_text_with_confidence`, transcribed from the
source: baseline 40, reassigned to 35 for words longer than 4 characters,
reassigned to 30 for purely alphabetic words longer than 2 characters. -/
def min_confidence (word : List Char) : Int :=
  let m : Int := 40
  let m := if decide (4 < word.length) then 35 else m
  let m := if pyIsAlpha word && decide (2 < word.length) then 30 else m
  m

/-- Token acceptance of `extract_text_with_confidence`: the engine token's
text is stripped; it must be non-empty with length greater than 1, and the
integer confidence must strictly exceed the dynamic threshold. -/
def acceptToken (text : List Char) (conf : Int) : Bool :=
  let word := pyStrip text
  (!word.isEmpty) && decide (1 < word.length) && decide (min_confidence word < conf)

/-- Modelled from the spec's words (C1): the shape-dependent minimum is 30
for a purely alphabetic token of length greater than 2 (this rule taking
precedence), else 35 for trimmed length greater than 4, else 40. -/
def claimMinConfidence (word : List Char) : Int :=
  if pyIsAlpha word && decide (2 < word.length) then 30
  else if decide (4 < word.length) then 35
  else 40

/-- Modelled from the spec's words (C1): a token is accepted iff its
trimmed text is non-empty with length greater than 1 and its confidence
strictly exceeds the shape-dependent minimum. -/
def specAccept (text : List Char) (conf : Int) : Bool :=
  let word := pyStrip text
  (!word.isEmpty) && decide (1 < word.length) && decide (claimMinConfidence word < conf)

/-- The structured classification produced by
`VelvetPreprocessor.analyze_text_context`. -/
structure ContextProfile where
  word_count : Nat
  is_communication : Bool
  is_code : Bool
  is_document : Bool
  is_web : Bool
  urgency_level : String
  emotional_indicators : List String
  task_indicators : List String

/-- Lowercasing as applied to the analyzed text (ASCII, matching Python
`str.lower` on the inputs of interest). -/
def toLowerList (s : List Char) : List Char := s.map Char.toLower

/-- Python `any(pattern in text for pattern in pats)`. -/
def containsAny (text : List Char) (pats : List (List Char)) : Bool :=
  pats.any (fun p => containsSub p text)

/-- Communication keywords of `analyze_text_context`. -/
def comm_patterns : List (List Char) :=
  (["message", "email", "chat", "discord", "slack", "teams", "zoom",
    "from:", "to:", "subject:"] : List String).map String.toList

/-- Code keywords of `analyze_text_context`. -/
def code_patterns : List (List Char) :=
  (["function", "class", "import", "export", "const", "let", "var",
    "def", "\x7b", "\x7d", "//", "/*"] : List String).map String.toList

/-- Document keywords of `analyze_text_context`. -/
def doc_patterns : List (List Char) :=
  (["document", "page", "chapter", "section", "paragraph", "word",
    "pdf"] : List String).map String.toList

/-- Web keywords of `analyze_text_context`. -/
def web_patterns : List (List Char) :=
  (["http", "www.", ".com", ".org", "search", "google",
    "browser"] : List String).map String.toList

/-- High-urgency keywords of `analyze_text_context`. -/
def urgent_patterns : List (List Char) :=
  (["urgent", "asap", "deadline", "important", "critical",
    "emergency"] : List String).map String.toList

/-- Medium-urgency keywords of `analyze_text_context`. -/
def medium_patterns : List (List Char) :=
  (["soon", "today", "meeting"] : List String).map String.toList

/-- Emotion categories with their keyword sets, in dict insertion order. -/
def emotional_patterns : List (String × List (List Char)) :=
  [("frustration",
    (["frustrated", "annoyed", "irritated", "angry"] : List String).map String.toList),
   ("stress",
    (["stressed", "overwhelmed", "anxious", "worried"] : List String).map String.toList),
   ("positive",
    (["great", "awesome", "perfect", "excellent"] : List String).map String.toList),
   ("neutral",
    (["fine", "okay", "sure", "whatever"] : List String).map String.toList)]

/-- Task keywords of `analyze_text_context`. -/
def task_patterns : List (List Char) :=
  (["todo", "task", "complete", "finish", "done", "need to", "have to",
    "should"] : List String).map String.toList

/-- `VelvetPreprocessor.analyze_text_context`: rule-based classification of
the corrected text. -/
def analyze_text_context (text : String) : ContextProfile :=
  let tl := toLowerList text.toList
  { word_count := (pySplit text.toList).length
    is_communication := containsAny tl comm_patterns
    is_code := containsAny tl code_patterns
    is_document := containsAny tl doc_patterns
    is_web := containsAny tl web_patterns
    urgency_level :=
      if containsAny tl urgent_patterns then "high"
      else if containsAny tl medium_patterns then "medium"
      else "low"
    emotional_indicators :=
      (emotional_patterns.filter (fun ep => containsAny tl ep.2)).map Prod.fst
    task_indicators :=
      if containsAny tl task_patterns then ["task_detected"] else [] }

/-- The tokens of one strategy that pass the acceptance rule, paired with
their confidences; the stored text is the stripped word, as in the source
(`confident_words.append(word)`). -/
def acceptedPairs (toks : List (List Char × Int)) : List (List Char × Int) :=
  toks.filterMap fun t =>
    if acceptToken t.1 t.2 then some (pyStrip t.1, t.2) else none

/-- One strategy's aggregated candidate: corrected joined text, mean
confidence on the 0-100 scale (0 when nothing was accepted), and the
accepted-token count. -/
structure Scored where
  text : List Char
  avg : ℚ
  wc : Nat

/-- Per-strategy scoring of `extract_text_with_confidence`: filter tokens,
average their confidences, post-process the joined accepted words. -/
def scoreTokens (toks : List (List Char × Int)) : Scored :=
  let acc := acceptedPairs toks
  { text := post_process_chars (joinSpaces (acc.map Prod.fst))
    avg := if acc.length = 0 then 0
           else ((acc.map Prod.snd).sum : ℚ) / (acc.length : ℚ)
    wc := acc.length }

/-- The running best of `extract_text_with_confidence`: `best_result`
(text and confidence already scaled to 0-1) together with
`best_word_count`. -/
structure BestState where
  text : List Char
  conf : ℚ
  wc : Nat

/-- The selection gate of the source: a candidate replaces the current
best only if `word_count > best_word_count and avg_confidence > 30`. -/
def selectStep (b : BestState) (s : Scored) : BestState :=
  if b.wc < s.wc ∧ 30 < s.avg then
    { text := s.text, conf := s.avg / 100, wc := s.wc }
  else
    b

/-- One loop iteration over the strategy list: a strategy whose engine
call threw (`none`) is skipped; otherwise its candidate is scored and
offered to the selection gate. -/
def extractStep (b : BestState) (o : Option (List (List Char × Int))) : BestState :=
  match o with
  | none => b
  | some toks => selectStep b (scoreTokens toks)

/-- The full selection loop of `extract_text_with_confidence`, starting
from the empty candidate `('', 0.0)` with `best_word_count = 0`. -/
def extractState (outcomes : List (Option (List (List Char × Int)))) : BestState :=
  outcomes.foldl extractStep { text := [], conf := 0, wc := 0 }

/-- `VelvetPreprocessor.extract_text_with_confidence`, as a function of
the per-strategy engine outcomes: returns the winning candidate's text
and its mean confidence scaled to the 0-1 range. -/
def extract_text_with_confidence
    (outcomes : List (Option (List (List Char × Int)))) : List Char × ℚ :=
  let b := extractState outcomes
  (b.text, b.conf)

/-! ### Helper lemmas -/

/-- Scaling the gate: mean confidence above 0.30 on the 0-1 scale is the
same as the source's `avg_confidence > 30` on the 0-100 scale. -/
theorem gate_scale {a : ℚ} : 3/10 < a / 100 ↔ 30 < a := by
  rw [div_lt_div_iff₀ (by norm_num) (by norm_num)]
  constructor <;> intro h <;> linarith

/-- The dynamic threshold never drops below 30. -/
theorem min_confidence_ge (w : List Char) : (30:Int) ≤ min_confidence w := by
  simp only [min_confidence]
  split
  · norm_num
  · split <;> norm_num

/-- Unfolding equation for the mean confidence of a scored strategy. -/
theorem scoreTokens_avg (toks : List (List Char × Int)) :
    (scoreTokens toks).avg =
      if (acceptedPairs toks).length = 0 then 0
      else (((acceptedPairs toks).map Prod.snd).sum : ℚ) /
        ((acceptedPairs toks).length : ℚ) := rfl

/-- Unfolding equation for the accepted-token count of a scored strategy. -/
theorem scoreTokens_wc (toks : List (List Char × Int)) :
    (scoreTokens toks).wc = (acceptedPairs toks).length := rfl

/-- An accepted token passed the strict comparison with the threshold. -/
theorem acceptToken_conf {t : List Char} {c : Int}
    (h : acceptToken t c = true) : min_confidence (pyStrip t) < c := by
  simp only [acceptToken, Bool.and_eq_true, decide_eq_true_eq] at h
  exact h.2

/-- Every pair retained by the filter carries the confidence of some input
token, and that confidence strictly exceeds 30. -/
theorem acceptedPairs_mem {toks : List (List Char × Int)}
    {p : List Char × Int} (hp : p ∈ acceptedPairs toks) :
    (∃ t ∈ toks, p.2 = t.2) ∧ 30 < p.2 := by
  rcases List.mem_filterMap.mp hp with ⟨t, ht, hft⟩
  by_cases hacc : acceptToken t.1 t.2 = true
  · rw [if_pos hacc] at hft
    obtain rfl := Option.some.inj hft
    refine ⟨⟨t, ht, rfl⟩, ?_⟩
    have h1 := acceptToken_conf hacc
    have h2 := min_confidence_ge (pyStrip t.1)
    show 30 < t.2
    omega
  · rw [if_neg hacc] at hft
    exact absurd hft (by simp)

/-- A list of integers all at most 100 sums to at most 100 times its
length. -/
theorem int_sum_le_100 :
    ∀ (l : List Int), (∀ x ∈ l, x ≤ 100) → l.sum ≤ 100 * (l.length : Int) := by
  intro l
  induction l with
  | nil => intro _; simp
  | cons a l ih =>
    intro h
    have ha := h a (List.mem_cons_self a l)
    have hl := ih (fun x hx => h x (List.mem_cons_of_mem a hx))
    simp only [List.sum_cons, List.length_cons]
    push_cast
    omega

/-- A list of integers all at least 31 sums to at least 31 times its
length. -/
theorem int_sum_ge_31 :
    ∀ (l : List Int), (∀ x ∈ l, 31 ≤ x) → 31 * (l.length : Int) ≤ l.sum := by
  intro l
  induction l with
  | nil => intro _; simp
  | cons a l ih =>
    intro h
    have ha := h a (List.mem_cons_self a l)
    have hl := ih (fun x hx => h x (List.mem_cons_of_mem a hx))
    simp only [List.sum_cons, List.length_cons]
    push_cast
    omega

/-- If every token's confidence is at most 100, a strategy's mean
confidence is at most 100. -/
theorem scoreTokens_avg_le100 {toks : List (List Char × Int)}
    (h : ∀ p ∈ toks, p.2 ≤ 100) : (scoreTokens toks).avg ≤ 100 := by
  rw [scoreTokens_avg]
  split
  · norm_num
  · next hne =>
    have hlen : 0 < (acceptedPairs toks).length := Nat.pos_of_ne_zero hne
    have hsum : ((acceptedPairs toks).map Prod.snd).sum ≤
        100 * ((((acceptedPairs toks).map Prod.snd).length : Int)) := by
      apply int_sum_le_100
      intro x hx
      rcases List.mem_map.mp hx with ⟨p, hp, rfl⟩
      rcases (acceptedPairs_mem hp).1 with ⟨t, ht, hpt⟩
      rw [hpt]
      exact h t ht
    rw [div_le_iff₀ (by exact_mod_cast hlen)]
    rw [List.length_map] at hsum
    calc ((((acceptedPairs toks).map Prod.snd).sum : Int) : ℚ)
        ≤ ((100 * ((acceptedPairs toks).length : Int) : Int) : ℚ) := by
          exact_mod_cast hsum
      _ = 100 * ((acceptedPairs toks).length : ℚ) := by push_cast; ring

/-- A strategy with at least one accepted token has mean confidence
strictly above 30, because each accepted token's confidence does. -/
theorem scoreTokens_avg_gt30 {toks : List (List Char × Int)}
    (h : 0 < (scoreTokens toks).wc) : 30 < (scoreTokens toks).avg := by
  rw [scoreTokens_wc] at h
  rw [scoreTokens_avg, if_neg (Nat.pos_iff_ne_zero.mp h)]
  have hsum : 31 * ((((acceptedPairs toks).map Prod.snd).length : Int)) ≤
      ((acceptedPairs toks).map Prod.snd).sum := by
    apply int_sum_ge_31
    intro x hx
    rcases List.mem_map.mp hx with ⟨p, hp, rfl⟩
    have := (acceptedPairs_mem hp).2
    omega
  rw [lt_div_iff₀ (by exact_mod_cast h)]
  rw [List.length_map] at hsum
  have hq : 31 * ((acceptedPairs toks).length : ℚ) ≤
      (((acceptedPairs toks).map Prod.snd).sum : ℚ) := by exact_mod_cast hsum
  have hq1 : (1:ℚ) ≤ ((acceptedPairs toks).length : ℚ) := by exact_mod_cast h
  linarith

/-- The selection gate never decreases the stored accepted-token count. -/
theorem selectStep_wc_le (b : BestState) (s : Scored) :
    b.wc ≤ (selectStep b s).wc := by
  unfold selectStep
  split
  · next hc => exact le_of_lt hc.1
  · exact le_refl _

/-- The stored accepted-token count is monotone along the strategy loop. -/
theorem foldl_wc_mono :
    ∀ (l : List (Option (List (List Char × Int)))) (b : BestState),
      b.wc ≤ (l.foldl extractStep b).wc := by
  intro l
  induction l with
  | nil => intro b; exact le_refl _
  | cons o l ih =>
    intro b
    rw [List.foldl_cons]
    refine le_trans ?_ (ih (extractStep b o))
    cases o with
    | none => exact le_refl _
    | some toks => exact selectStep_wc_le b (scoreTokens toks)

/-- After the loop, the stored count dominates the accepted-token count of
every gate-passing strategy in the list. -/
theorem foldl_wc_ge :
    ∀ (l : List (Option (List (List Char × Int)))) (b : BestState)
      (toks : List (List Char × Int)),
      some toks ∈ l → 30 < (scoreTokens toks).avg →
      (scoreTokens toks).wc ≤ (l.foldl extractStep b).wc := by
  intro l
  induction l with
  | nil => intro b toks hm; cases hm
  | cons o l ih =>
    intro b toks hm hg
    rw [List.foldl_cons]
    rcases List.mem_cons.mp hm with heq | htail
    · subst heq
      by_cases hc : b.wc < (scoreTokens toks).wc ∧ 30 < (scoreTokens toks).avg
      · have hstep : (extractStep b (some toks)).wc = (scoreTokens toks).wc := by
          show (selectStep b (scoreTokens toks)).wc = _
          unfold selectStep
          rw [if_pos hc]

        rw [← hstep]
        exact foldl_wc_mono l _
      · have hle : (scoreTokens toks).wc ≤ b.wc := by
          rcases Nat.lt_or_ge b.wc (scoreTokens toks).wc with h | h
          · exact absurd ⟨h, hg⟩ hc
          · exact h
        have hstep : extractStep b (some toks) = b := by
          show selectStep b (scoreTokens toks) = b
          unfold selectStep
          rw [if_neg hc]
        rw [hstep]
        exact le_trans hle (foldl_wc_mono l b)
    · exact ih (extractStep b o) toks htail hg

/-- Invariant: the stored confidence stays inside `[0, 1]` when token
confidences are at most 100. -/
theorem foldl_conf_bounds :
    ∀ (l : List (Option (List (List Char × Int)))) (b : BestState),
      (∀ toks, some toks ∈ l → ∀ p ∈ toks, p.2 ≤ 100) →
      0 ≤ b.conf → b.conf ≤ 1 →
      0 ≤ (l.foldl extractStep b).conf ∧ (l.foldl extractStep b).conf ≤ 1 := by
  intro l
  induction l with
  | nil => intro b _ h0 h1; exact ⟨h0, h1⟩
  | cons o l ih =>
    intro b hl h0 h1
    rw [List.foldl_cons]
    have hb : 0 ≤ (extractStep b o).conf ∧ (extractStep b o).conf ≤ 1 := by
      cases o with
      | none => exact ⟨h0, h1⟩
      | some toks =>
        show 0 ≤ (selectStep b (scoreTokens toks)).conf ∧
          (selectStep b (scoreTokens toks)).conf ≤ 1
        unfold selectStep
        split
        · next hc =>
          constructor
          · show (0:ℚ) ≤ (scoreTokens toks).avg / 100
            have : (0:ℚ) < (scoreTokens toks).avg := lt_trans (by norm_num) hc.2
            exact div_nonneg (le_of_lt this) (by norm_num)
          · show (scoreTokens toks).avg / 100 ≤ 1
            rw [div_le_one (by norm_num)]
            exact scoreTokens_avg_le100 (hl toks (List.mem_cons_self _ _))
        · exact ⟨h0, h1⟩
    exact ih (extractStep b o)
      (fun toks hm p hp => hl toks (List.mem_cons_of_mem _ hm) p hp) hb.1 hb.2

/-- Invariant: the stored confidence is either exactly 0 or strictly above
0.30, because every update passes the gate. -/
theorem foldl_conf_dichotomy :
    ∀ (l : List (Option (List (List Char × Int)))) (b : BestState),
      (b.conf = 0 ∨ 3/10 < b.conf) →
      ((l.foldl extractStep b).conf = 0 ∨ 3/10 < (l.foldl extractStep b).conf) := by
  intro l
  induction l with
  | nil => intro b hb; exact hb
  | cons o l ih =>
    intro b hb
    rw [List.foldl_cons]
    apply ih
    cases o with
    | none => exact hb
    | some toks =>
      show (selectStep b (scoreTokens toks)).conf = 0 ∨
        3/10 < (selectStep b (scoreTokens toks)).conf
      unfold selectStep
      split
      · next hc =>
        right
        show (3:ℚ)/10 < (scoreTokens toks).avg / 100
        exact gate_scale.mpr hc.2
      · exact hb

/-- If no strategy's candidate clears the 30-percent gate, the loop never
leaves the initial empty candidate. -/
theorem foldl_stays_empty :
    ∀ (l : List (Option (List (List Char × Int)))),
      (∀ toks, some toks ∈ l → (scoreTokens toks).avg ≤ 30) →
      l.foldl extractStep { text := [], conf := 0, wc := 0 } =
        { text := [], conf := 0, wc := 0 } := by
  intro l
  induction l with
  | nil => intro _; rfl
  | cons o l ih =>
    intro h
    rw [List.foldl_cons]
    have hstep : extractStep { text := [], conf := 0, wc := 0 } o =
        { text := [], conf := 0, wc := 0 } := by
      cases o with
      | none => rfl
      | some toks =>
        show selectStep { text := [], conf := 0, wc := 0 } (scoreTokens toks) = _
        unfold selectStep
        exact if_neg (fun hc =>
          absurd hc.2 (not_lt.mpr (h toks (List.mem_cons_self _ _))))
    rw [hstep]
    exact ih (fun toks hm => h toks (List.mem_cons_of_mem _ hm))

/-- Unfolding equation for the urgency field of the classifier. -/
theorem analyze_urgency (t : String) :
    (analyze_text_context t).urgency_level =
      if containsAny (toLowerList t.toList) urgent_patterns then "high"
      else if containsAny (toLowerList t.toList) medium_patterns then "medium"
      else "low" := rfl

/-! ### Claim theorems -/

/-- C1: a recognition token is accepted iff its trimmed text is non-empty
with length greater than 1 and its integer confidence strictly exceeds the
shape-dependent minimum — 40 by default, 35 for trimmed length above 4, 30
for a purely alphabetic token of length above 2 (the alphabetic rule
taking precedence); in particular the purely alphabetic token
"definitely" with confidence 32 is accepted. -/
theorem token_acceptance_rule :
    (∀ (text : List Char) (conf : Int),
        acceptToken text conf = specAccept text conf) ∧
    acceptToken ("definitely").toList 32 = true :=
  ⟨fun _ _ => rfl, by decide⟩

/-- C2: the selection loop returns a candidate whose accepted-token count
is at least that of every input candidate whose mean confidence exceeds
0.30 on the 0-1 scale, and a candidate replaces the current best exactly
when its accepted-token count is strictly greater and its mean confidence
exceeds 0.30. -/
theorem select_best_max_tokens :
    (∀ (outcomes : List (Option (List (List Char × Int))))
        (toks : List (List Char × Int)),
        some toks ∈ outcomes →
        3/10 < (scoreTokens toks).avg / 100 →
        (scoreTokens toks).wc ≤ (extractState outcomes).wc) ∧
    (∀ (b : BestState) (s : Scored),
        (b.wc < s.wc ∧ 3/10 < s.avg / 100 →
          selectStep b s = { text := s.text, conf := s.avg / 100, wc := s.wc }) ∧
        (¬(b.wc < s.wc ∧ 3/10 < s.avg / 100) → selectStep b s = b)) := by
  constructor
  · intro outcomes toks hm hg
    exact foldl_wc_ge outcomes _ toks hm (gate_scale.mp hg)
  · intro b s
    constructor
    · intro hc
      unfold selectStep
      rw [if_pos ⟨hc.1, gate_scale.mp hc.2⟩]
    · intro hc
      unfold selectStep
      rw [if_neg (fun h => hc ⟨h.1, gate_scale.mpr h.2⟩)]

/-- Witness for C2: with one strategy yielding 8 accepted tokens at
confidence 45 and another yielding 5 accepted tokens at confidence 90,
the selected candidate's accepted-token count dominates the 5-token
gate-passer's. -/
theorem select_best_max_tokens_witness :
    (scoreTokens (List.replicate 5 (("gamma").toList, (90:Int)))).wc ≤
      (extractState
        [some (List.replicate 8 (("alpha").toList, (45:Int))),
         some (List.replicate 5 (("gamma").toList, (90:Int)))]).wc :=
  select_best_max_tokens.1 _ _ (by simp)
    (gate_scale.mpr (scoreTokens_avg_gt30 (by decide)))

/-- C3 (code evaluated at the failing input): the production corrector is
not idempotent — the artifact-stripping pass runs after whitespace
normalization and leaves a triple space, which a second run collapses. -/
theorem post_process_not_idempotent :
    post_process_ocr_text "a ¥¥¥ b" = "a   b" ∧
    post_process_ocr_text (post_process_ocr_text "a ¥¥¥ b") = "a b" ∧
    post_process_ocr_text (post_process_ocr_text "a ¥¥¥ b") ≠
      post_process_ocr_text "a ¥¥¥ b" := by
  refine ⟨by decide, by decide, ?_⟩
  decide

/-- C4 counterexample: on "from: alice@example.com Subject: meeting" the
classifier sets `is_web` to `true` (the ".com" of the address is a web
keyword), so the claimed profile is wrong. -/
theorem email_scenario_counterexample :
    ¬((analyze_text_context "from: alice@example.com Subject: meeting").is_communication = true ∧
      (analyze_text_context "from: alice@example.com Subject: meeting").is_web = false ∧
      (analyze_text_context "from: alice@example.com Subject: meeting").urgency_level = "medium") := by
  decide

/-- C4 amended: the scenario yields `is_communication = true`,
`is_web = true` (".com" inside the email address matches a web keyword),
and `urgency_level = "medium"`. -/
theorem email_scenario_amended :
    (analyze_text_context "from: alice@example.com Subject: meeting").is_communication = true ∧
    (analyze_text_context "from: alice@example.com Subject: meeting").is_web = true ∧
    (analyze_text_context "from: alice@example.com Subject: meeting").urgency_level = "medium" := by
  refine ⟨by decide, by decide, by decide⟩

/-- C6 counterexample: the production corrector
`post_process_ocr_text` has no misspelling dictionary at all — "teh"
inside a sentence is left unchanged. -/
theorem teh_unchanged_counterexample :
    post_process_ocr_text "see teh cat" = "see teh cat" := by decide

/-- C6 amended: only the standalone test corrector replaces dictionary
misspellings, and only when delimited by spaces on both sides (not
word-boundary matched): "teh" between two words becomes "the", but at the
start of the string it is left unchanged, and the production corrector
never replaces it. -/
theorem word_fixes_space_delimited :
    advanced_post_process "see teh cat" = "see the cat" ∧
    advanced_post_process "teh cat" = "teh cat" ∧
    post_process_ocr_text "see teh cat" = "see teh cat" := by
  refine ⟨by decide, by decide, by decide⟩

/-- C7: when every strategy fails (`none`) or no candidate clears the
30-percent gate, extraction returns the empty candidate `("", 0.0)`, and
classifying the empty string yields word count 0, all four flags false,
urgency "low", and empty indicator lists. -/
theorem all_failed_empty_candidate
    (outcomes : List (Option (List (List Char × Int))))
    (h : ∀ toks, some toks ∈ outcomes → (scoreTokens toks).avg ≤ 30) :
    extract_text_with_confidence outcomes = ([], 0) ∧
    (analyze_text_context "").word_count = 0 ∧
    (analyze_text_context "").is_communication = false ∧
    (analyze_text_context "").is_code = false ∧
    (analyze_text_context "").is_document = false ∧
    (analyze_text_context "").is_web = false ∧
    (analyze_text_context "").urgency_level = "low" ∧
    (analyze_text_context "").emotional_indicators = [] ∧
    (analyze_text_context "").task_indicators = [] := by
  refine ⟨?_, by decide, by decide, by decide, by decide, by decide,
    by decide, by decide, by decide⟩
  have h0 := foldl_stays_empty outcomes h
  show ((extractState outcomes).text, (extractState outcomes).conf) = ([], 0)
  unfold extractState
  rw [h0]

/-- Witness for C7: one throwing strategy and one strategy whose sole
token is rejected produce the empty candidate. -/
theorem all_failed_empty_candidate_witness :
    extract_text_with_confidence [none, some [(("ok").toList, (10:Int))]] = ([], 0) ∧
    (analyze_text_context "").word_count = 0 ∧
    (analyze_text_context "").is_communication = false ∧
    (analyze_text_context "").is_code = false ∧
    (analyze_text_context "").is_document = false ∧
    (analyze_text_context "").is_web = false ∧
    (analyze_text_context "").urgency_level = "low" ∧
    (analyze_text_context "").emotional_indicators = [] ∧
    (analyze_text_context "").task_indicators = [] :=
  all_failed_empty_candidate _ (by
    intro toks hm
    simp at hm
    subst hm
    have hacc : acceptedPairs [((['o', 'k'] : List Char), (10:Int))] = [] := by
      decide
    rw [scoreTokens_avg, hacc]
    norm_num)

/-- C8: exactly one urgency level is reported, in priority order — "high"
whenever a high-urgency keyword occurs, else "medium" whenever a
medium-urgency keyword occurs, else "low"; in particular "URGENT: deadline
today" is classified "high". -/
theorem urgency_priority_order :
    (∀ t : String,
      (containsAny (toLowerList t.toList) urgent_patterns = true →
        (analyze_text_context t).urgency_level = "high") ∧
      (containsAny (toLowerList t.toList) urgent_patterns = false →
        containsAny (toLowerList t.toList) medium_patterns = true →
        (analyze_text_context t).urgency_level = "medium") ∧
      (containsAny (toLowerList t.toList) urgent_patterns = false →
        containsAny (toLowerList t.toList) medium_patterns = false →
        (analyze_text_context t).urgency_level = "low")) ∧
    (analyze_text_context "URGENT: deadline today").urgency_level = "high" := by
  constructor
  · intro t
    refine ⟨fun h => ?_, fun h1 h2 => ?_, fun h1 h2 => ?_⟩
    · rw [analyze_urgency, if_pos h]
    · rw [analyze_urgency, if_neg (by simp only [h1]; decide), if_pos h2]
    · rw [analyze_urgency, if_neg (by simp only [h1]; decide),
        if_neg (by simp only [h2]; decide)]
  · decide

/-- Witness for C8: the high-urgency branch applied at the scenario text. -/
theorem urgency_priority_order_witness :
    (analyze_text_context "URGENT: deadline today").urgency_level = "high" :=
  (urgency_priority_order.1 "URGENT: deadline today").1 (by decide)

/-- C9: whenever every token confidence lies in `[0, 100]`, the returned
extraction confidence lies in `[0, 1]`. -/
theorem confidence_normalized
    (outcomes : List (Option (List (List Char × Int))))
    (h : ∀ toks, some toks ∈ outcomes → ∀ p ∈ toks, 0 ≤ p.2 ∧ p.2 ≤ 100) :
    0 ≤ (extract_text_with_confidence outcomes).2 ∧
      (extract_text_with_confidence outcomes).2 ≤ 1 :=
  foldl_conf_bounds outcomes { text := [], conf := 0, wc := 0 }
    (fun toks hm p hp => (h toks hm p hp).2) (by norm_num) (by norm_num)

/-- Witness for C9: a single strategy with one accepted token of
confidence 50 yields a confidence inside `[0, 1]`. -/
theorem confidence_normalized_witness :
    0 ≤ (extract_text_with_confidence [some [(("hello").toList, (50:Int))]]).2 ∧
      (extract_text_with_confidence [some [(("hello").toList, (50:Int))]]).2 ≤ 1 :=
  confidence_normalized _ (by
    intro toks hm p hp
    simp only [List.mem_singleton, Option.some.injEq] at hm
    subst hm
    simp only [List.mem_singleton] at hp
    subst hp
    exact ⟨by decide, by decide⟩)

/-- C10: a candidate with at least one accepted token has mean confidence
strictly above 30 (every accepted token exceeds a threshold of at least
30), so the returned extraction confidence is either exactly 0 or
strictly greater than 0.30 — values in `(0, 0.30]` are unreachable. -/
theorem confidence_zero_or_above_gate :
    (∀ toks : List (List Char × Int),
        0 < (scoreTokens toks).wc → 30 < (scoreTokens toks).avg) ∧
    (∀ outcomes : List (Option (List (List Char × Int))),
        (extract_text_with_confidence outcomes).2 = 0 ∨
          3/10 < (extract_text_with_confidence outcomes).2) := by
  constructor
  · intro toks h
    exact scoreTokens_avg_gt30 h
  · intro outcomes
    exact foldl_conf_dichotomy outcomes { text := [], conf := 0, wc := 0 }
      (Or.inl rfl)

/-- Witness for C10: the strategy with one accepted token of confidence 50
has mean confidence above 30. -/
theorem confidence_zero_or_above_gate_witness :
    30 < (scoreTokens [(("hello").toList, (50:Int))]).avg :=
  confidence_zero_or_above_gate.1 _ (by decide)

end Velvet
